import Mathlib

/-!
Verification of the js-cfg-tools typed validation/casting engine
(`src/src/index.ts`, canonical variant: `CfgTools.castToType`,
`CfgTools.mustBeDefined`, `CfgTools.recommendToBeDefined`, `Cfg`).

The engine resolves raw environment strings into typed values, recording
errors and warnings into a validation context, and finalization commits the
result object only when no error was recorded.

JavaScript builtins used by the source (`parseFloat`, `parseInt`,
`JSON.parse`, `new URL`, `net.isIP`, the two regex tests, number/array
stringification) are external collaborators; they are modelled as fields of
a `Prims` record that every definition takes as a parameter, so each theorem
holds for every implementation of those builtins.  `String.prototype.split`
and `toLocaleLowerCase` are modelled concretely (`jsSplit`, `jsToLower`)
because claims depend on their exact behavior on concrete strings.
-/

/-- A JavaScript number: either `NaN` or a numeric value (modelled as a
rational; the source never does arithmetic on these, only comparisons). -/
inductive JsNum where
  | nan : JsNum
  | num (q : ℚ) : JsNum
deriving DecidableEq, Repr

/-- A JavaScript runtime value, the common codomain of the casting engine
(the TS return type `TypeMap[T]` per tag: text, number, boolean, parsed
JSON structure, or sequence). -/
inductive JsValue where
  | str (s : String) : JsValue
  | num (n : JsNum) : JsValue
  | bool (b : Bool) : JsValue
  | null : JsValue
  | arr (xs : List JsValue) : JsValue
  | obj (kvs : List (String × JsValue)) : JsValue

/-- The ValidationContext: the `errors` and `warnings` arrays owned by one
`Cfg` initialization run and mutated by `CfgTools` (source lines 434-435). -/
structure Ctx where
  errors : List String
  warnings : List String

/-- `errors.push(msg)` (source: `this.errors.push(...)`). -/
def pushErr (ctx : Ctx) (m : String) : Ctx :=
  { ctx with errors := ctx.errors ++ [m] }

/-- `warnings.push(msg)` (source: `this.warnings.push(...)`). -/
def pushWarn (ctx : Ctx) (m : String) : Ctx :=
  { ctx with warnings := ctx.warnings ++ [m] }

/-- The JavaScript builtins the casting engine calls.  These are external
to the repository (Node/ECMAScript library functions), so they are
parameters of the embedding: `parseFloat`, `parseInt`, number and array
stringification (for template literals), `net.isIP` (truthiness of),
whether `new URL(s)` succeeds, the email regex test, the uuidv4 regex
test, and `JSON.parse` (`none` = throws). -/
structure Prims where
  parseFloat : String → JsNum
  parseInt : String → JsNum
  numToString : ℚ → String
  arrToString : List JsValue → String
  isIP : String → Bool
  urlOk : String → Bool
  emailTest : String → Bool
  uuidTest : String → Bool
  jsonParse : String → Option JsValue

/-- Model of `toLocaleLowerCase()` as ASCII lowercasing (the source only
compares against ASCII keyword lists). -/
def jsToLower (s : String) : String :=
  String.mk (s.data.map Char.toLower)

/-- Model of `raw.split(",")`: split the character list on commas; always
returns at least one element, like the JavaScript builtin. -/
def jsSplitAux : List Char → List Char → List String
  | [], acc => [String.mk acc.reverse]
  | c :: cs, acc =>
      if c = ',' then String.mk acc.reverse :: jsSplitAux cs []
      else jsSplitAux cs (c :: acc)

/-- `raw.split(",")` on a string. -/
def jsSplit (s : String) : List String :=
  jsSplitAux s.data []

/-- JavaScript template-literal stringification of a value, used for the
interpolations of `fallback` in messages and validity re-checks. -/
def jsToString (p : Prims) : JsValue → String
  | .str s => s
  | .num .nan => "NaN"
  | .num (.num q) => p.numToString q
  | .bool b => if b then "true" else "false"
  | .null => "null"
  | .arr xs => p.arrToString xs
  | .obj _ => "[object Object]"

/-- Template-literal form of the optional `fallback` parameter
(an absent fallback interpolates as the text undefined). -/
def fbToStr (p : Prims) : Option JsValue → String
  | none => "undefined"
  | some fb => jsToString p fb

/-- The closed set of type tags (TS `TTypes = keyof TypeMap`). -/
inductive Tag where
  | string | number | boolean | port | url | host
  | json | email | integer | uuidv4 | array
deriving DecidableEq, Repr

/-- The `trueValues` list of the boolean case (source lines 163-172). -/
def trueValues : List String :=
  ["true", "1", "yes", "on", "enable", "enabled", "t", "y"]

/-- The `falseValues` list of the boolean case (source lines 173-182). -/
def falseValues : List String :=
  ["false", "0", "no", "off", "disable", "disabled", "f", "n"]

/-- The per-tag `isValid` computation of `castToType` on the raw string
(source: the local `isValid` of each switch arm).  For the string tag the
source computes `typeof raw === "string"`, identically true for a string
argument.  For the array tag: JSON-parse succeeding with an array result,
or (when parsing throws) a non-empty comma-split. -/
def rawValid (p : Prims) : Tag → String → Bool
  | .string, _ => true
  | .number, raw =>
      match p.parseFloat raw with
      | .nan => false
      | .num _ => true
  | .boolean, raw =>
      trueValues.contains (jsToLower raw) || falseValues.contains (jsToLower raw)
  | .port, raw =>
      match p.parseInt raw with
      | .nan => false
      | .num q => decide (1 ≤ q) && decide (q ≤ 65535)
  | .url, raw => p.urlOk raw
  | .host, raw => p.isIP raw || raw == "localhost"
  | .json, raw => (p.jsonParse raw).isSome
  | .email, raw => p.emailTest raw
  | .integer, raw =>
      match p.parseInt raw, p.parseFloat raw with
      | .num a, .num b => decide (a = b)
      | _, _ => false
  | .uuidv4, raw => p.uuidTest raw
  | .array, raw =>
      match p.jsonParse raw with
      | some v => match v with | .arr _ => true | _ => false
      | none => decide (0 < (jsSplit raw).length)

/-- The value returned by `castToType` when `isValid` holds (the first
branch of each switch arm).  Note the json case returns the raw text
(source line 306: `return raw as TypeMap[T]`), not the parsed structure. -/
def successValue (p : Prims) : Tag → String → JsValue
  | .string, raw => .str raw
  | .number, raw => .num (p.parseFloat raw)
  | .boolean, raw => .bool (trueValues.contains (jsToLower raw))
  | .port, raw => .num (p.parseInt raw)
  | .url, raw => .str raw
  | .host, raw => .str raw
  | .json, raw => .str raw
  | .email, raw => .str raw
  | .integer, raw => .num (p.parseInt raw)
  | .uuidv4, raw => .str raw
  | .array, raw =>
      match p.jsonParse raw with
      | some v => v
      | none => .arr ((jsSplit raw).map .str)

/-- The per-tag `isDefaultValid` computation of `castToType` on a present
fallback (source: the local `isDefaultValid` / `isValidDefault` of each
arm, applied to the template-literal form of the fallback).  The json case
performs no fallback validation in the source (a present fallback is
always accepted with a warning), hence `true`. -/
def fbValid (p : Prims) : Tag → JsValue → Bool
  | .string, fb => match fb with | .str _ => true | _ => false
  | .number, fb =>
      match p.parseFloat (jsToString p fb) with
      | .nan => false
      | .num _ => true
  | .boolean, fb =>
      trueValues.contains (jsToLower (jsToString p fb)) ||
        falseValues.contains (jsToLower (jsToString p fb))
  | .port, fb =>
      match p.parseInt (jsToString p fb) with
      | .nan => false
      | .num q => decide (1 ≤ q) && decide (q ≤ 65535)
  | .url, fb => p.urlOk (jsToString p fb)
  | .host, fb =>
      p.isIP (jsToString p fb) ||
        (match fb with | .str s => s == "localhost" | _ => false)
  | .json, _ => true
  | .email, fb => p.emailTest (jsToString p fb)
  | .integer, fb =>
      match p.parseInt (jsToString p fb), p.parseFloat (jsToString p fb) with
      | .num a, .num b => decide (a = b)
      | _, _ => false
  | .uuidv4, fb => p.uuidTest (jsToString p fb)
  | .array, fb => match fb with | .arr _ => true | _ => false

/-- The value returned by `castToType` on the invalid-raw path: the
source's final `return fallback ?? sentinel` of each arm, except boolean
whose arm returns `isDefaultTrue` (membership of the fallback's string
form in `trueValues`, source line 209). -/
def invalidReturn (p : Prims) : Tag → Option JsValue → JsValue
  | .string, fbOpt => fbOpt.getD (.str "")
  | .number, fbOpt => fbOpt.getD (.num (.num 0))
  | .boolean, fbOpt => .bool (trueValues.contains (jsToLower (fbToStr p fbOpt)))
  | .port, fbOpt => fbOpt.getD (.num (.num 1))
  | .url, fbOpt => fbOpt.getD (.str "")
  | .host, fbOpt => fbOpt.getD (.str "localhost")
  | .json, fbOpt => fbOpt.getD (.obj [])
  | .email, fbOpt => fbOpt.getD (.str "")
  | .integer, fbOpt => fbOpt.getD (.num (.num 0))
  | .uuidv4, fbOpt => fbOpt.getD (.str "00000000-0000-0000-0000-000000000000")
  | .array, fbOpt => fbOpt.getD (.arr [])

/-- The error message pushed when the raw value is invalid and no fallback
was supplied (source: the `!isHasDefault` branch of each arm). -/
def errMsgRaw : Tag → String → String
  | .string, key => "❌ " ++ key ++ " is not a string"
  | .number, key => "❌ " ++ key ++ " is not a number"
  | .boolean, key => "❌ " ++ key ++ " is not a boolean"
  | .port, key => "❌ " ++ key ++ " is not a valid port"
  | .url, key => "❌ " ++ key ++ " is not a valid URL"
  | .host, key => "❌ " ++ key ++ " is not a valid host"
  | .json, key => "❌ " ++ key ++ " is not a valid JSON"
  | .email, key => "❌ " ++ key ++ " is not a valid email"
  | .integer, key => "❌ " ++ key ++ " is not an integer"
  | .uuidv4, key => "❌ " ++ key ++ " is not a valid UUIDV4"
  | .array, key => "❌ " ++ key ++ " is not an array"

/-- The error message pushed when the fallback itself fails validation
(source: the `!isDefaultValid` branch of each arm; the json arm has no
such branch and this message is unreachable for it). -/
def errMsgFb (p : Prims) (t : Tag) (key : String) (fb : JsValue) : String :=
  let fs := jsToString p fb
  match t with
  | .string => "❌ fallback value for " ++ key ++ " (" ++ fs ++ ") is not a string"
  | .number => "❌ fallback value for " ++ key ++ " (" ++ fs ++ ") is not a number"
  | .boolean => "❌ fallback value for " ++ key ++ " (" ++ fs ++ ") is not a boolean"
  | .port => "❌ fallback value for " ++ key ++ " (" ++ fs ++ ") is not a valid port"
  | .url => "❌ fallback value for " ++ key ++ " (" ++ fs ++ ") is not a valid URL"
  | .host => "❌ fallback value for " ++ key ++ " (" ++ fs ++ ") is not a valid host"
  | .json => "❌ " ++ key ++ " is not a valid JSON"
  | .email => "❌ fallback value for " ++ key ++ " (" ++ fs ++ ") is not a valid email"
  | .integer => "❌ fallback value for " ++ key ++ " (" ++ fs ++ ") is not an integer"
  | .uuidv4 => "❌ fallback value for " ++ key ++ " (" ++ fs ++ ") is not a valid UUIDV4"
  | .array => "❌ fallback value for " ++ key ++ " (" ++ fs ++ ") is not an array"

/-- The warning message pushed when the raw value is invalid and the
fallback passes validation (source: the final `else` branch of each arm;
the json warning does not quote the fallback). -/
def warnMsg (p : Prims) (t : Tag) (key : String) (fbOpt : Option JsValue) : String :=
  let fs := fbToStr p fbOpt
  match t with
  | .string => "⚠️  " ++ key ++ " is not a string, using default value: \"" ++ fs ++ "\""
  | .number => "⚠️  " ++ key ++ " is not a number, using default value: \"" ++ fs ++ "\""
  | .boolean => "⚠️  " ++ key ++ " is not a boolean, using default value: \"" ++ fs ++ "\""
  | .port => "⚠️  " ++ key ++ " is not a valid port, using default value: \"" ++ fs ++ "\""
  | .url => "⚠️  " ++ key ++ " is not a valid URL, using default value: \"" ++ fs ++ "\""
  | .host => "⚠️  " ++ key ++ " is not a valid host, using default value: \"" ++ fs ++ "\""
  | .json => "⚠️  " ++ key ++ " is not a valid JSON, using default value"
  | .email => "⚠️  " ++ key ++ " is not a valid email, using default value: \"" ++ fs ++ "\""
  | .integer => "⚠️  " ++ key ++ " is not an integer, using default value: \"" ++ fs ++ "\""
  | .uuidv4 => "⚠️  " ++ key ++ " is not a valid UUIDV4, using default value: \"" ++ fs ++ "\""
  | .array => "⚠️  " ++ key ++ " is not an array, using default value: \"" ++ fs ++ "\""

/-- `CfgTools.castToType` (source lines 112-425).  Every switch arm of the
canonical variant has the same escalation shape, translated here with the
per-tag computations factored into `rawValid`, `successValue`, `fbValid`,
`invalidReturn` and the message tables:
raw valid → return the success value, push nothing;
no fallback → push the raw error, return the sentinel;
fallback invalid → push the fallback error, return the fallback;
fallback valid → push the warning, return the fallback. -/
def castToType (p : Prims) (t : Tag) (raw key : String) (fbOpt : Option JsValue)
    (ctx : Ctx) : JsValue × Ctx :=
  if rawValid p t raw = true then
    (successValue p t raw, ctx)
  else
    match fbOpt with
    | none => (invalidReturn p t none, pushErr ctx (errMsgRaw t key))
    | some fb =>
        if fbValid p t fb = true then
          (invalidReturn p t (some fb), pushWarn ctx (warnMsg p t key (some fb)))
        else
          (invalidReturn p t (some fb), pushErr ctx (errMsgFb p t key fb))

/-- `CfgTools.mustBeDefined` (source lines 78-86): absent key pushes the
not-defined error and still casts the empty string; present key casts the
raw value.  No fallback is passed at this call site. -/
def mustBeDefined (p : Prims) (env : String → Option String) (t : Tag)
    (key : String) (ctx : Ctx) : JsValue × Ctx :=
  match env key with
  | none => castToType p t "" key none (pushErr ctx ("❌ " ++ key ++ " is not defined"))
  | some v => castToType p t v key none ctx

/-- `CfgTools.recommendToBeDefined` (source lines 96-110): the absent-key
early return is commented out in the canonical variant, so an absent key
casts the empty string with the fallback supplied. -/
def recommendToBeDefined (p : Prims) (env : String → Option String) (t : Tag)
    (key : String) (fb : JsValue) (ctx : Ctx) : JsValue × Ctx :=
  castToType p t ((env key).getD "") key (some fb) ctx

/-- The committed state of a `Cfg` instance (source lines 432-435). -/
structure Cfg (TEnv : Type) where
  environmentVariables : TEnv
  errorsList : List String
  warningsList : List String

/-- `Cfg` construction (source lines 437-444 and `proceedErrors`, lines
468-474): run the declaration function on a fresh context; if any error
was recorded, throw the composite newline-joined failure, else commit.
The declaration function is modelled in state-passing style over `Ctx`. -/
def initCfg {TEnv : Type} (initFn : Ctx → TEnv × Ctx) : Except String (Cfg TEnv) :=
  let r := initFn ⟨[], []⟩
  if 0 < r.2.errors.length then
    Except.error ("Environment configuration errors detected:\n" ++
      String.intercalate "\n" r.2.errors)
  else
    Except.ok ⟨r.1, r.2.errors, r.2.warnings⟩

/-- Whether a fallback value inhabits the tag's declared native type
(TS `TypeMap[T]`, the type the API forces on the `defaultValue`
argument of `recommendToBeDefined`). -/
def wellTypedFb : Tag → JsValue → Bool
  | .string, fb => match fb with | .str _ => true | _ => false
  | .number, fb => match fb with | .num _ => true | _ => false
  | .boolean, fb => match fb with | .bool _ => true | _ => false
  | .port, fb => match fb with | .num _ => true | _ => false
  | .url, fb => match fb with | .str _ => true | _ => false
  | .host, fb => match fb with | .str _ => true | _ => false
  | .json, _ => true
  | .email, fb => match fb with | .str _ => true | _ => false
  | .integer, fb => match fb with | .num _ => true | _ => false
  | .uuidv4, fb => match fb with | .str _ => true | _ => false
  | .array, fb => match fb with | .arr _ => true | _ => false

/-- The spec's §4.1 table of parsed values, written from the spec's words
for comparison with the code's `successValue` (they differ at the json
tag, where the spec promises the parsed structure). -/
def specParsedValue (p : Prims) : Tag → String → JsValue
  | .string, raw => .str raw
  | .number, raw => .num (p.parseFloat raw)
  | .boolean, raw => .bool (trueValues.contains (jsToLower raw))
  | .port, raw => .num (p.parseInt raw)
  | .url, raw => .str raw
  | .host, raw => .str raw
  | .json, raw => (p.jsonParse raw).getD .null
  | .email, raw => .str raw
  | .integer, raw => .num (p.parseInt raw)
  | .uuidv4, raw => .str raw
  | .array, raw =>
      match p.jsonParse raw with
      | some v => v
      | none => .arr ((jsSplit raw).map .str)

/-- A concrete instantiation of the JavaScript builtins, fixing their
outputs on the handful of strings the witnesses evaluate (agreeing with
the real builtins there). -/
def samplePrims : Prims where
  parseFloat s := if s = "5" then .num 5 else .nan
  parseInt s := if s = "5" then .num 5 else .nan
  numToString q := if q = 5 then "5" else "<num>"
  arrToString _ := ""
  isIP _ := false
  urlOk _ := false
  emailTest _ := false
  uuidTest _ := false
  jsonParse s :=
    if s = "[1,2,3]" then some (.arr [.num (.num 1), .num (.num 2), .num (.num 3)])
    else if s = "[1]" then some (.arr [.num (.num 1)])
    else if s = "[0]" then some (.arr [.num (.num 0)])
    else none

/-- The empty process environment. -/
def envEmpty : String → Option String := fun _ => none

/-- The comma-split of any string is non-empty (auxiliary form). -/
theorem jsSplitAux_ne_nil (cs : List Char) : ∀ acc, jsSplitAux cs acc ≠ [] := by
  induction cs with
  | nil => intro acc; simp [jsSplitAux]
  | cons c cs ih =>
      intro acc
      simp only [jsSplitAux]
      split
      · simp
      · exact ih _

/-- The comma-split of any string is non-empty, like the JS builtin. -/
theorem jsSplit_length_pos (s : String) : 0 < (jsSplit s).length :=
  List.length_pos.mpr (jsSplitAux_ne_nil s.data [])

/-- For a fallback of the tag's declared TS type, the invalid-path return
value of `castToType` is the fallback itself (for the boolean tag because
stringifying a boolean and testing membership recovers the boolean). -/
theorem invalidReturn_of_wellTyped (p : Prims) (t : Tag) (fb : JsValue)
    (h : wellTypedFb t fb = true) : invalidReturn p t (some fb) = fb := by
  cases t <;> cases fb <;> simp_all [wellTypedFb, invalidReturn, fbToStr, jsToString]
  all_goals rename_i b
  all_goals cases b
  all_goals decide

/-- Claim C6: one call to the casting engine appends at most one message in
total — either nothing, exactly one error, or exactly one warning, never
both an error and a warning. -/
theorem cast_single_message (p : Prims) (t : Tag) (raw key : String)
    (fbOpt : Option JsValue) (ctx : Ctx) :
    ((castToType p t raw key fbOpt ctx).2.errors = ctx.errors ∧
      (castToType p t raw key fbOpt ctx).2.warnings = ctx.warnings) ∨
    (∃ m, (castToType p t raw key fbOpt ctx).2.errors = ctx.errors ++ [m] ∧
      (castToType p t raw key fbOpt ctx).2.warnings = ctx.warnings) ∨
    (∃ m, (castToType p t raw key fbOpt ctx).2.warnings = ctx.warnings ++ [m] ∧
      (castToType p t raw key fbOpt ctx).2.errors = ctx.errors) := by
  unfold castToType
  by_cases h : rawValid p t raw = true
  · simp [h]
  · simp only [h, if_false]
    cases fbOpt with
    | none => exact Or.inr (Or.inl ⟨_, rfl, rfl⟩)
    | some fb =>
        by_cases hfb : fbValid p t fb = true
        · simp only [hfb, if_true]
          exact Or.inr (Or.inr ⟨_, rfl, rfl⟩)
        · simp only [hfb, if_false]
          exact Or.inr (Or.inl ⟨_, rfl, rfl⟩)

/-- Claim C1: finalization is atomic — a configuration object is exposed
iff the error list is empty when the declaration function returns; when it
is non-empty, construction aborts with the single composite failure whose
message is every recorded error, newline-joined, in recording order, and
the declaration's object is not exposed. -/
theorem finalize_atomic (TEnv : Type) (initFn : Ctx → TEnv × Ctx) :
    ((∃ c, initCfg initFn = Except.ok c) ↔ (initFn ⟨[], []⟩).2.errors = []) ∧
    ((initFn ⟨[], []⟩).2.errors ≠ [] →
      initCfg initFn = Except.error ("Environment configuration errors detected:\n" ++
        String.intercalate "\n" (initFn ⟨[], []⟩).2.errors)) := by
  constructor
  · constructor
    · rintro ⟨c, hc⟩
      unfold initCfg at hc
      by_cases h : 0 < (initFn ⟨[], []⟩).2.errors.length
      · simp [h] at hc
      · exact List.length_eq_zero.mp (Nat.eq_zero_of_not_pos h)
    · intro h
      refine ⟨⟨(initFn ⟨[], []⟩).1, (initFn ⟨[], []⟩).2.errors,
        (initFn ⟨[], []⟩).2.warnings⟩, ?_⟩
      unfold initCfg
      simp [h]
  · intro h
    unfold initCfg
    simp [List.length_pos.mpr h]

/-- Claim C1 witness: a declaration that records one error makes
construction abort with that error as the composite message. -/
theorem finalize_atomic_witness :
    ((fun ctx => ((), pushErr ctx "❌ A")) ⟨[], []⟩ : Unit × Ctx).2.errors ≠ [] ∧
    initCfg (fun ctx => ((), pushErr ctx "❌ A")) =
      Except.error "Environment configuration errors detected:\n❌ A" := by
  refine ⟨by simp [pushErr], ?_⟩
  have h := (finalize_atomic Unit (fun ctx => ((), pushErr ctx "❌ A"))).2
    (by simp [pushErr])
  simpa using h

/-- Claim C10: a successfully constructed configuration always has an
empty errors list, while a successful construction may carry a non-empty
warnings list. -/
theorem committed_errors_empty :
    (∀ (TEnv : Type) (initFn : Ctx → TEnv × Ctx) (c : Cfg TEnv),
        initCfg initFn = Except.ok c → c.errorsList = []) ∧
    (∃ c : Cfg Unit,
        initCfg (fun ctx => ((), pushWarn ctx "⚠️  demo")) = Except.ok c ∧
        c.warningsList ≠ []) := by
  constructor
  · intro TEnv initFn c hc
    unfold initCfg at hc
    by_cases h : 0 < (initFn ⟨[], []⟩).2.errors.length
    · simp [h] at hc
    · simp only [h, if_false, Except.ok.injEq] at hc
      have he := List.length_eq_zero.mp (Nat.eq_zero_of_not_pos h)
      rw [← hc]
      exact he
  · exact ⟨⟨(), [], ["⚠️  demo"]⟩, rfl, by simp⟩

/-- Claim C10 witness: a concrete successful construction with empty
errors list. -/
theorem committed_errors_empty_witness :
    initCfg (fun ctx => ((), ctx)) = Except.ok (⟨(), [], []⟩ : Cfg Unit) ∧
    (⟨(), [], []⟩ : Cfg Unit).errorsList = [] :=
  ⟨rfl, committed_errors_empty.1 Unit (fun ctx => ((), ctx)) ⟨(), [], []⟩ rfl⟩

/-- Claim C2: for every tag, an optional resolution whose present raw value
fails the tag's grammar returns the fallback verbatim; a fallback passing
the fallback check appends exactly one warning and zero errors, a failing
fallback appends exactly one error and zero warnings. -/
theorem optional_invalid_raw_escalation (p : Prims) (env : String → Option String)
    (t : Tag) (key raw : String) (fb : JsValue) (ctx : Ctx)
    (henv : env key = some raw)
    (hwt : wellTypedFb t fb = true)
    (hraw : rawValid p t raw = false) :
    (recommendToBeDefined p env t key fb ctx).1 = fb ∧
    (fbValid p t fb = true →
      (recommendToBeDefined p env t key fb ctx).2.errors = ctx.errors ∧
      (recommendToBeDefined p env t key fb ctx).2.warnings =
        ctx.warnings ++ [warnMsg p t key (some fb)]) ∧
    (fbValid p t fb = false →
      (recommendToBeDefined p env t key fb ctx).2.errors =
        ctx.errors ++ [errMsgFb p t key fb] ∧
      (recommendToBeDefined p env t key fb ctx).2.warnings = ctx.warnings) := by
  by_cases hfb : fbValid p t fb = true
  · simp [recommendToBeDefined, castToType, henv, hraw, hfb, pushWarn,
      invalidReturn_of_wellTyped p t fb hwt]
  · simp [recommendToBeDefined, castToType, henv, hraw, hfb, pushErr,
      invalidReturn_of_wellTyped p t fb hwt]

/-- Claim C2 witness: number tag, raw text abc invalid, numeric fallback 5
valid — the resolution returns 5 and appends exactly one warning. -/
theorem optional_invalid_raw_escalation_witness :
    (fun (_ : String) => some "abc") "K" = some "abc" ∧
    wellTypedFb Tag.number (JsValue.num (JsNum.num 5)) = true ∧
    rawValid samplePrims Tag.number "abc" = false ∧
    (recommendToBeDefined samplePrims (fun _ => some "abc") Tag.number "K"
      (JsValue.num (JsNum.num 5)) ⟨[], []⟩).1 = JsValue.num (JsNum.num 5) ∧
    (recommendToBeDefined samplePrims (fun _ => some "abc") Tag.number "K"
      (JsValue.num (JsNum.num 5)) ⟨[], []⟩).2.errors = [] ∧
    (recommendToBeDefined samplePrims (fun _ => some "abc") Tag.number "K"
      (JsValue.num (JsNum.num 5)) ⟨[], []⟩).2.warnings =
      [warnMsg samplePrims Tag.number "K" (some (JsValue.num (JsNum.num 5)))] := by
  have h := optional_invalid_raw_escalation samplePrims (fun _ => some "abc")
    Tag.number "K" "abc" (JsValue.num (JsNum.num 5)) ⟨[], []⟩ rfl (by decide) (by decide)
  have hw := h.2.1 (by decide)
  exact ⟨rfl, by decide, by decide, h.1, hw.1, by simpa using hw.2⟩

/-- Claim C5 counterexample: for the json tag with a raw value that parses
as JSON, the optional resolution returns the raw text, not the parsed
value promised by the spec table, so the claim fails at this input. -/
theorem optional_valid_raw_silent_counterexample :
    (recommendToBeDefined samplePrims (fun _ => some "[0]") Tag.json "K"
      (JsValue.obj []) ⟨[], []⟩).1 = JsValue.str "[0]" ∧
    specParsedValue samplePrims Tag.json "[0]" =
      JsValue.arr [JsValue.num (JsNum.num 0)] ∧
    JsValue.str "[0]" ≠ JsValue.arr [JsValue.num (JsNum.num 0)] :=
  ⟨rfl, rfl, fun h => JsValue.noConfusion h⟩

/-- Claim C5 (amended): for every tag, an optional resolution whose present
raw value satisfies the tag's grammar returns the success value of the
validator and appends nothing to either list, regardless of the fallback;
that success value agrees with the spec's parsed-value table for every tag
except json, for which the raw text is returned unchanged. -/
theorem optional_valid_raw_silent (p : Prims) (env : String → Option String)
    (t : Tag) (key raw : String) (fb : JsValue) (ctx : Ctx)
    (henv : env key = some raw)
    (hraw : rawValid p t raw = true) :
    recommendToBeDefined p env t key fb ctx = (successValue p t raw, ctx) ∧
    (t ≠ Tag.json → successValue p t raw = specParsedValue p t raw) ∧
    successValue p Tag.json raw = JsValue.str raw := by
  refine ⟨by simp [recommendToBeDefined, castToType, henv, hraw], ?_, rfl⟩
  intro hne
  cases t
  case json => exact absurd rfl hne
  all_goals rfl

/-- Claim C5 witness: number tag with raw text 5 — the resolution returns
the parsed number 5 and appends nothing. -/
theorem optional_valid_raw_silent_witness :
    (fun (_ : String) => some "5") "K" = some "5" ∧
    rawValid samplePrims Tag.number "5" = true ∧
    recommendToBeDefined samplePrims (fun _ => some "5") Tag.number "K"
      (JsValue.num (JsNum.num 7)) ⟨[], []⟩ =
      (JsValue.num (JsNum.num 5), ⟨[], []⟩) ∧
    successValue samplePrims Tag.number "5" = specParsedValue samplePrims Tag.number "5" := by
  have h := optional_valid_raw_silent samplePrims (fun _ => some "5")
    Tag.number "K" "5" (JsValue.num (JsNum.num 7)) ⟨[], []⟩ rfl (by decide)
  exact ⟨rfl, by decide, by simpa using h.1, h.2.1 (by decide)⟩

/-- Claim C3 counterexample: for the string tag, a required resolution of
an absent key records exactly one error (the not-defined one), not two as
the claim states for every tag. -/
theorem required_absent_double_error_counterexample :
    (mustBeDefined samplePrims envEmpty Tag.string "K" ⟨[], []⟩).2.errors =
      ["❌ K is not defined"] ∧
    ((mustBeDefined samplePrims envEmpty Tag.string "K" ⟨[], []⟩).2.errors).length ≠ 2 := by
  constructor
  · rfl
  · decide

/-- Claim C3 (amended): a required resolution of an absent key records two
errors — the not-defined error followed by the empty-string validation
error — for every tag whose grammar rejects the empty string, i.e. every
tag except string and array; for the string and array tags (whose grammars
accept the empty string) exactly the not-defined error is recorded.  The
hypotheses pin the JavaScript builtins' outputs on the empty string. -/
theorem required_absent_errors (p : Prims) (env : String → Option String)
    (t : Tag) (key : String) (ctx : Ctx)
    (henv : env key = none)
    (hpf : p.parseFloat "" = JsNum.nan)
    (hpi : p.parseInt "" = JsNum.nan)
    (hurl : p.urlOk "" = false)
    (hip : p.isIP "" = false)
    (hjson : p.jsonParse "" = none)
    (hemail : p.emailTest "" = false)
    (huuid : p.uuidTest "" = false) :
    (t ≠ Tag.string → t ≠ Tag.array →
      (mustBeDefined p env t key ctx).2.errors =
        ctx.errors ++ ["❌ " ++ key ++ " is not defined", errMsgRaw t key] ∧
      (mustBeDefined p env t key ctx).2.warnings = ctx.warnings) ∧
    ((t = Tag.string ∨ t = Tag.array) →
      (mustBeDefined p env t key ctx).2.errors =
        ctx.errors ++ ["❌ " ++ key ++ " is not defined"] ∧
      (mustBeDefined p env t key ctx).2.warnings = ctx.warnings) := by
  constructor
  · intro hs ha
    have hraw : rawValid p t "" = false := by
      cases t
      case string => exact absurd rfl hs
      case array => exact absurd rfl ha
      case number => simp [rawValid, hpf]
      case boolean => simp only [rawValid]; decide
      case port => simp [rawValid, hpi]
      case url => simp [rawValid, hurl]
      case host => simp [rawValid, hip]
      case json => simp [rawValid, hjson]
      case email => simp [rawValid, hemail]
      case integer => simp [rawValid, hpi]
      case uuidv4 => simp [rawValid, huuid]
    simp [mustBeDefined, castToType, henv, hraw, pushErr]
  · rintro (rfl | rfl)
    · simp [mustBeDefined, castToType, henv, rawValid, pushErr]
    · have hraw : rawValid p Tag.array "" = true := by
        simp [rawValid, hjson]
        decide
      simp [mustBeDefined, castToType, henv, hraw, pushErr]

/-- Claim C3 witness: number tag, empty environment — two errors recorded
for the same key, in order. -/
theorem required_absent_errors_witness :
    envEmpty "K" = none ∧
    samplePrims.parseFloat "" = JsNum.nan ∧
    (mustBeDefined samplePrims envEmpty Tag.number "K" ⟨[], []⟩).2.errors =
      ["❌ K is not defined", "❌ K is not a number"] ∧
    (mustBeDefined samplePrims envEmpty Tag.number "K" ⟨[], []⟩).2.warnings = [] := by
  have h := (required_absent_errors samplePrims envEmpty Tag.number "K" ⟨[], []⟩
    rfl rfl rfl rfl rfl rfl rfl rfl).1 (by decide) (by decide)
  exact ⟨rfl, rfl, by simpa using h.1, h.2⟩

/-- Claim C4, evaluation at the failing input: the json tag accepts a raw
string that JSON-parses, but the resolution returns the raw text rather
than the parsed structure that the spec and the README promise. -/
theorem json_returns_raw_not_parsed :
    samplePrims.jsonParse "[1]" = some (JsValue.arr [JsValue.num (JsNum.num 1)]) ∧
    mustBeDefined samplePrims (fun _ => some "[1]") Tag.json "K" ⟨[], []⟩ =
      (JsValue.str "[1]", ⟨[], []⟩) ∧
    JsValue.str "[1]" ≠ JsValue.arr [JsValue.num (JsNum.num 1)] :=
  ⟨rfl, rfl, fun h => JsValue.noConfusion h⟩

/-- Claim C7: array resolution round-trip — JSON raw text yields the
parsed numeric sequence, non-JSON raw text yields the comma-split text
sequence, both without recording any message; and the comma-split path
accepts every non-empty raw string whose JSON parse fails. -/
theorem array_dual_parse (p : Prims) (key : String) (fbOpt : Option JsValue)
    (ctx : Ctx) :
    (p.jsonParse "[1,2,3]" = some (JsValue.arr
        [JsValue.num (JsNum.num 1), JsValue.num (JsNum.num 2), JsValue.num (JsNum.num 3)]) →
      castToType p Tag.array "[1,2,3]" key fbOpt ctx =
        (JsValue.arr [JsValue.num (JsNum.num 1), JsValue.num (JsNum.num 2),
          JsValue.num (JsNum.num 3)], ctx)) ∧
    (p.jsonParse "1,2,3" = none →
      castToType p Tag.array "1,2,3" key fbOpt ctx =
        (JsValue.arr [JsValue.str "1", JsValue.str "2", JsValue.str "3"], ctx)) ∧
    (∀ raw, raw ≠ "" → p.jsonParse raw = none →
      castToType p Tag.array raw key fbOpt ctx =
        (JsValue.arr ((jsSplit raw).map JsValue.str), ctx)) := by
  refine ⟨?_, ?_, ?_⟩
  · intro h
    simp [castToType, rawValid, successValue, h]
  · intro h
    have hs : jsSplit "1,2,3" = ["1", "2", "3"] := by decide
    simp [castToType, rawValid, successValue, h, hs]
  · intro raw _ h
    simp [castToType, rawValid, successValue, h, jsSplit_length_pos raw]

/-- Claim C7 witness: both round-trip inputs evaluated at a concrete
implementation of the JSON parser. -/
theorem array_dual_parse_witness :
    samplePrims.jsonParse "[1,2,3]" = some (JsValue.arr
      [JsValue.num (JsNum.num 1), JsValue.num (JsNum.num 2), JsValue.num (JsNum.num 3)]) ∧
    samplePrims.jsonParse "1,2,3" = none ∧
    castToType samplePrims Tag.array "[1,2,3]" "K" none ⟨[], []⟩ =
      (JsValue.arr [JsValue.num (JsNum.num 1), JsValue.num (JsNum.num 2),
        JsValue.num (JsNum.num 3)], ⟨[], []⟩) ∧
    castToType samplePrims Tag.array "1,2,3" "K" none ⟨[], []⟩ =
      (JsValue.arr [JsValue.str "1", JsValue.str "2", JsValue.str "3"], ⟨[], []⟩) := by
  have h := array_dual_parse samplePrims "K" none ⟨[], []⟩
  exact ⟨rfl, rfl, h.1 rfl, h.2.1 rfl⟩

/-- Claim C8: an optional array resolution of an absent variable casts the
empty string; its JSON parse fails, the comma-split yields the one-element
sequence holding the empty text, which is non-empty and accepted — so the
fallback is ignored and nothing is recorded. -/
theorem array_absent_returns_empty_split (p : Prims) (env : String → Option String)
    (key : String) (fb : JsValue) (ctx : Ctx)
    (henv : env key = none) (hjson : p.jsonParse "" = none) :
    recommendToBeDefined p env Tag.array key fb ctx =
      (JsValue.arr [JsValue.str ""], ctx) := by
  have hs : jsSplit "" = [""] := by decide
  simp [recommendToBeDefined, castToType, rawValid, successValue, henv, hjson, hs]

/-- Claim C8 witness: concrete absent variable, arbitrary fallback — the
resolution returns the one-element empty-text sequence, context unchanged. -/
theorem array_absent_returns_empty_split_witness :
    envEmpty "K" = none ∧
    samplePrims.jsonParse "" = none ∧
    recommendToBeDefined samplePrims envEmpty Tag.array "K"
      (JsValue.arr [JsValue.num (JsNum.num 9)]) ⟨[], []⟩ =
      (JsValue.arr [JsValue.str ""], ⟨[], []⟩) :=
  ⟨rfl, rfl, array_absent_returns_empty_split samplePrims envEmpty "K"
    (JsValue.arr [JsValue.num (JsNum.num 9)]) ⟨[], []⟩ rfl rfl⟩

/-- Claim C9: a boolean-typed fallback always passes the boolean fallback
check (its string form is in the recognized value sets), so the
invalid-fallback error branch of the boolean case is unreachable: with
invalid or absent raw, an optional boolean resolution records exactly one
warning and returns the fallback. -/
theorem boolean_fallback_always_valid :
    (∀ (p : Prims) (c : Bool), fbValid p Tag.boolean (JsValue.bool c) = true) ∧
    (∀ (p : Prims) (env : String → Option String) (key : String) (b : Bool) (ctx : Ctx),
      rawValid p Tag.boolean ((env key).getD "") = false →
      recommendToBeDefined p env Tag.boolean key (JsValue.bool b) ctx =
        (JsValue.bool b,
          pushWarn ctx (warnMsg p Tag.boolean key (some (JsValue.bool b))))) := by
  have hv : ∀ (p : Prims) (c : Bool), fbValid p Tag.boolean (JsValue.bool c) = true := by
    intro p c
    cases c
    · simp only [fbValid, jsToString]
      decide
    · simp only [fbValid, jsToString]
      decide
  refine ⟨hv, ?_⟩
  intro p env key b ctx hraw
  have hwt : wellTypedFb Tag.boolean (JsValue.bool b) = true := rfl
  simp [recommendToBeDefined, castToType, hraw, hv p b,
    invalidReturn_of_wellTyped p Tag.boolean (JsValue.bool b) hwt]

/-- Claim C9 witness: absent variable (raw empty string) with fallback
true — one warning and the fallback returned. -/
theorem boolean_fallback_always_valid_witness :
    fbValid samplePrims Tag.boolean (JsValue.bool true) = true ∧
    rawValid samplePrims Tag.boolean ((envEmpty "K").getD "") = false ∧
    recommendToBeDefined samplePrims envEmpty Tag.boolean "K"
      (JsValue.bool true) ⟨[], []⟩ =
      (JsValue.bool true,
        pushWarn ⟨[], []⟩ (warnMsg samplePrims Tag.boolean "K"
          (some (JsValue.bool true)))) := by
  refine ⟨boolean_fallback_always_valid.1 samplePrims true, ?_, ?_⟩
  · simp only [rawValid]
    decide
  · exact boolean_fallback_always_valid.2 samplePrims envEmpty "K" true ⟨[], []⟩
      (by simp only [rawValid]; decide)

/-- Claim C6 witness: the single-message property instantiated at one
concrete call of the casting engine. -/
theorem cast_single_message_witness :
    ((castToType samplePrims Tag.port "x" "K" none ⟨[], []⟩).2.errors = ([] : List String) ∧
      (castToType samplePrims Tag.port "x" "K" none ⟨[], []⟩).2.warnings = []) ∨
    (∃ m, (castToType samplePrims Tag.port "x" "K" none ⟨[], []⟩).2.errors = [] ++ [m] ∧
      (castToType samplePrims Tag.port "x" "K" none ⟨[], []⟩).2.warnings = []) ∨
    (∃ m, (castToType samplePrims Tag.port "x" "K" none ⟨[], []⟩).2.warnings = [] ++ [m] ∧
      (castToType samplePrims Tag.port "x" "K" none ⟨[], []⟩).2.errors = []) :=
  cast_single_message samplePrims Tag.port "x" "K" none ⟨[], []⟩
